import Mathlib

/-!
Verification of a human-readable duration parser and formatter
(a `humantime`-style library: `parse_duration` / `format_duration`).

The parser is embedded as a character-at-a-time scan over `List Char`
with an explicit byte-offset cursor, mirroring the source's three scan
loops (`parse_first_char`, the digit-accumulation loop, and the
unit-letter loop) as states of one structurally recursive function.
All machine integers are modelled as `Nat` with explicit checked
arithmetic against `2 ^ 64`.
-/

namespace Myhumantime

/-- Byte length of a scalar value in UTF-8 (the source tracks byte
offsets into the original string via remaining-length arithmetic). -/
def utf8Len (c : Char) : Nat :=
  if c.toNat < 128 then 1
  else if c.toNat < 2048 then 2
  else if c.toNat < 65536 then 3
  else 4

/-- Total UTF-8 byte length of a character list. -/
def byteLen : List Char → Nat
  | [] => 0
  | c :: cs => utf8Len c + byteLen cs

/-- The `'0'..='9'` match guard. -/
def isDigitChar (c : Char) : Bool :=
  48 ≤ c.toNat && c.toNat ≤ 57

/-- `c as u64 - '0' as u64`. -/
def digitVal (c : Char) : Nat := c.toNat - 48

/-- The `'a'..='z' | 'A'..='Z'` match guard. -/
def isAsciiAlpha (c : Char) : Bool :=
  (97 ≤ c.toNat && c.toNat ≤ 122) || (65 ≤ c.toNat && c.toNat ≤ 90)

/-- Rust `char::is_whitespace`: the Unicode White_Space code points. -/
def rustIsWhitespace (c : Char) : Bool :=
  decide (c.toNat ∈ [9, 10, 11, 12, 13, 32, 133, 160, 5760,
    8192, 8193, 8194, 8195, 8196, 8197, 8198, 8199, 8200, 8201, 8202,
    8232, 8233, 8239, 8287, 12288])

/-- `u64::checked_mul`. -/
def checked_mul (a b : Nat) : Option Nat :=
  if a * b < 18446744073709551616 then some (a * b) else none

/-- `u64::checked_add`. -/
def checked_add (a b : Nat) : Option Nat :=
  if a + b < 18446744073709551616 then some (a + b) else none

/-- The parse error enumeration of the library. -/
inductive Error where
  | invalidCharacter (offset : Nat)
  | numberExpected (offset : Nat)
  | unknownUnit (ustart : Nat) (uend : Nat) (unit : List Char) (value : Nat)
  | numberOverflow
  | empty
deriving DecidableEq

/-- `std::time::Duration`: seconds and sub-second nanoseconds. -/
structure Duration where
  secs : Nat
  nanos : Nat
deriving DecidableEq

/-- Result of a call to `parse_duration`, with the possibility of a
runtime panic (from `Duration::new`) made explicit. -/
inductive ParseOutcome where
  | ok (d : Duration)
  | err (e : Error)
  | panicked
deriving DecidableEq

/-- `OverflowOp::mul` for `u64`: checked multiply, `NumberOverflow` on failure. -/
def ovMul (a b : Nat) : Except Error Nat :=
  match checked_mul a b with
  | some v => Except.ok v
  | none => Except.error Error.numberOverflow

/-- `OverflowOp::add` for `u64`: checked add, `NumberOverflow` on failure. -/
def ovAdd (a b : Nat) : Except Error Nat :=
  match checked_add a b with
  | some v => Except.ok v
  | none => Except.error Error.numberOverflow

/-- One digit-accumulation step:
`n.checked_mul(10).and_then(checked_add(digit))`. -/
def mulAddStep (n d : Nat) : Option Nat :=
  (checked_mul n 10).bind (fun x => checked_add x d)

/-- `&src[b..e]` on byte offsets, walking the character list with a
byte cursor (offsets in actual runs always fall on boundaries). -/
def utf8SliceAux : List Char → Nat → Nat → Nat → List Char
  | [], _, _, _ => []
  | c :: cs, pos, b, e =>
    if b ≤ pos ∧ pos + utf8Len c ≤ e then c :: utf8SliceAux cs (pos + utf8Len c) b e
    else utf8SliceAux cs (pos + utf8Len c) b e

/-- Byte-offset slice of the original input. -/
def utf8Slice (s : List Char) (b e : Nat) : List Char :=
  utf8SliceAux s 0 b e

/-- The unit-spelling table of `parse_unit`: maps the unit substring to
its `(seconds, nanoseconds)` contribution for value `n`, with checked
multiplier application; unknown text is an `UnknownUnit` error carrying
the substring, its byte span and the value. -/
def unit_multiplier (n : Nat) (u : List Char) (bstart bend : Nat) : Except Error (Nat × Nat) :=
  if u = ("nanos").toList ∨ u = ("nsec").toList ∨ u = ("ns").toList then
    Except.ok (0, n)
  else if u = ("usec").toList ∨ u = ("µs").toList then
    (ovMul n 1000).map (fun x => (0, x))
  else if u = ("millis").toList ∨ u = ("msec").toList ∨ u = ("ms").toList then
    (ovMul n 1000000).map (fun x => (0, x))
  else if u = ("seconds").toList ∨ u = ("second").toList ∨ u = ("secs").toList
      ∨ u = ("sec").toList ∨ u = ("s").toList then
    Except.ok (n, 0)
  else if u = ("minutes").toList ∨ u = ("minute").toList ∨ u = ("min").toList
      ∨ u = ("mins").toList ∨ u = ("m").toList then
    (ovMul n 60).map (fun x => (x, 0))
  else if u = ("hours").toList ∨ u = ("hour").toList ∨ u = ("hr").toList
      ∨ u = ("hrs").toList ∨ u = ("h").toList then
    (ovMul n 3600).map (fun x => (x, 0))
  else if u = ("days").toList ∨ u = ("day").toList ∨ u = ("d").toList then
    (ovMul n 86400).map (fun x => (x, 0))
  else if u = ("weeks").toList ∨ u = ("week").toList ∨ u = ("w").toList then
    (ovMul n 604800).map (fun x => (x, 0))
  else if u = ("months").toList ∨ u = ("month").toList ∨ u = ("M").toList then
    (ovMul n 2630016).map (fun x => (x, 0))
  else if u = ("years").toList ∨ u = ("year").toList ∨ u = ("y").toList then
    (ovMul n 31557600).map (fun x => (x, 0))
  else
    Except.error (Error.unknownUnit bstart bend u n)

/-- `Parser::parse_unit`: resolve the unit span `[bstart, bend)` of
`src` for value `n`, add the contribution into the running accumulator
`cur = (seconds, nanoseconds)` with checked arithmetic, carrying
nanoseconds into seconds when they exceed `1_000_000_000` (strict
comparison, as in the source). -/
def parse_unit (src : List Char) (cur : Nat × Nat) (n bstart bend : Nat) :
    Except Error (Nat × Nat) :=
  match unit_multiplier n (utf8Slice src bstart bend) bstart bend with
  | Except.error e => Except.error e
  | Except.ok (sec, nsec) =>
    match ovAdd cur.2 nsec with
    | Except.error e => Except.error e
    | Except.ok nsec1 =>
      if 1000000000 < nsec1 then
        match ovAdd sec (nsec1 / 1000000000) with
        | Except.error e => Except.error e
        | Except.ok sec1 =>
          match ovAdd cur.1 sec1 with
          | Except.error e => Except.error e
          | Except.ok sec2 => Except.ok (sec2, nsec1 % 1000000000)
      else
        match ovAdd cur.1 sec with
        | Except.error e => Except.error e
        | Except.ok sec2 => Except.ok (sec2, nsec1)

/-- `Duration::new(secs, nanos)`: nanoseconds at or above one second
are carried into the seconds with a checked add that panics (`none`)
on overflow. -/
def duration_new (secs nanos : Nat) : Option Duration :=
  if secs + nanos / 1000000000 < 18446744073709551616 then
    some ⟨secs + nanos / 1000000000, nanos % 1000000000⟩
  else none

/-- Final conversion of the accumulator:
`Duration::new(current.0, current.1 as u32)`. -/
def finalize (cur : Nat × Nat) : ParseOutcome :=
  match duration_new cur.1 (cur.2 % 4294967296) with
  | some d => ParseOutcome.ok d
  | none => ParseOutcome.panicked

/-- Scanner state, one constructor per scan loop of the source:
`start`/`first` are `parse_first_char` (initial and between tokens,
remembering the frozen entry offset), `number` is the
digit-accumulation loop, `unit` is the unit-letter loop (remembering
the span start). -/
inductive ScanState where
  | start (off : Nat)
  | first (off : Nat)
  | number (n : Nat)
  | unit (n : Nat) (ustart : Nat)

/-- The single forward scan of `Parser::parse`, one character per
step; `src` is the full original input (needed for unit-span slicing),
`pos` the byte offset of the next character. -/
def run (src : List Char) : List Char → Nat → ScanState → Nat × Nat → ParseOutcome
  | [], pos, st, cur =>
    match st with
    | ScanState.start _ => ParseOutcome.err Error.empty
    | ScanState.first _ => finalize cur
    | ScanState.number n =>
      match parse_unit src cur n pos pos with
      | Except.error e => ParseOutcome.err e
      | Except.ok cur2 => finalize cur2
    | ScanState.unit n ustart =>
      match parse_unit src cur n ustart pos with
      | Except.error e => ParseOutcome.err e
      | Except.ok cur2 => finalize cur2
  | c :: rest, pos, st, cur =>
    match st with
    | ScanState.start off =>
      if isDigitChar c then run src rest (pos + utf8Len c) (ScanState.number (digitVal c)) cur
      else if rustIsWhitespace c then run src rest (pos + utf8Len c) (ScanState.start off) cur
      else ParseOutcome.err (Error.numberExpected off)
    | ScanState.first off =>
      if isDigitChar c then run src rest (pos + utf8Len c) (ScanState.number (digitVal c)) cur
      else if rustIsWhitespace c then run src rest (pos + utf8Len c) (ScanState.first off) cur
      else ParseOutcome.err (Error.numberExpected off)
    | ScanState.number n =>
      if isDigitChar c then
        match mulAddStep n (digitVal c) with
        | some n2 => run src rest (pos + utf8Len c) (ScanState.number n2) cur
        | none => ParseOutcome.err Error.numberOverflow
      else if rustIsWhitespace c then
        run src rest (pos + utf8Len c) (ScanState.number n) cur
      else if isAsciiAlpha c then
        run src rest (pos + utf8Len c) (ScanState.unit n pos) cur
      else ParseOutcome.err (Error.invalidCharacter pos)
    | ScanState.unit n ustart =>
      if isDigitChar c then
        match parse_unit src cur n ustart pos with
        | Except.error e => ParseOutcome.err e
        | Except.ok cur2 => run src rest (pos + utf8Len c) (ScanState.number (digitVal c)) cur2
      else if rustIsWhitespace c then
        match parse_unit src cur n ustart pos with
        | Except.error e => ParseOutcome.err e
        | Except.ok cur2 => run src rest (pos + utf8Len c) (ScanState.first (pos + utf8Len c)) cur2
      else if isAsciiAlpha c then
        run src rest (pos + utf8Len c) (ScanState.unit n ustart) cur
      else ParseOutcome.err (Error.invalidCharacter pos)

/-- `parse_duration`: run the scanner from the beginning of the input
with an empty accumulator. -/
def parse_duration (s : List Char) : ParseOutcome :=
  run s s 0 (ScanState.start 0) (0, 0)

/-- Decimal rendering of an unsigned integer (`write!("{}", value)`). -/
def natDecimal (n : Nat) : List Char := Nat.toDigits 10 n

/-- `item_plural`: render a year/month/day component, with a leading
separator space when something was already written and a trailing `s`
when the value is greater than one; returns the rendered text and the
updated `started` flag. -/
def item_plural (started : Bool) (name : List Char) (value : Nat) : List Char × Bool :=
  if 0 < value then
    (((if started then [' '] else []) ++ natDecimal value ++ name)
      ++ (if 1 < value then ['s'] else []), true)
  else ([], started)

/-- `item`: render a never-pluralized component (h/m/s/ms/µs/ns). -/
def item (started : Bool) (name : List Char) (value : Nat) : List Char × Bool :=
  if 0 < value then
    ((if started then [' '] else []) ++ natDecimal value ++ name, true)
  else ([], started)

/-- `impl fmt::Display for FormattedDuration`: greedy decomposition of
the duration, largest unit first, rendering the nine components in
order with the `started` flag threaded through (the `% 4294967296`
occurrences are the `as u32` casts of the source). -/
def format_duration (d : Duration) : List Char :=
  let secs := d.secs
  let nanos := d.nanos
  if secs = 0 ∧ nanos = 0 then ("0s").toList
  else
    let years := secs / 31557600
    let ydays := secs % 31557600
    let months := ydays / 2630016
    let mdays := ydays % 2630016
    let days := mdays / 86400
    let day_secs := mdays % 86400
    let hours := day_secs / 3600
    let minutes := day_secs % 3600 / 60
    let seconds := day_secs % 60
    let millis := nanos / 1000000
    let micros := nanos / 1000 % 1000
    let nanosec := nanos % 1000
    let p1 := item_plural false (("year").toList) years
    let p2 := item_plural p1.2 (("month").toList) months
    let p3 := item_plural p2.2 (("day").toList) days
    let p4 := item p3.2 (("h").toList) (hours % 4294967296)
    let p5 := item p4.2 (("m").toList) (minutes % 4294967296)
    let p6 := item p5.2 (("s").toList) (seconds % 4294967296)
    let p7 := item p6.2 (("ms").toList) millis
    let p8 := item p7.2 (("µs").toList) micros
    let p9 := item p8.2 (("ns").toList) nanosec
    p1.1 ++ p2.1 ++ p3.1 ++ p4.1 ++ p5.1 ++ p6.1 ++ p7.1 ++ p8.1 ++ p9.1

/-- Modelled from the spec (§4.3 step 4): one rendered component,
`<value><suffix>`, pluralized with a trailing `s` when the component is
one of year/month/day and the value exceeds one. -/
def specToken (value : Nat) (name : List Char) (pl : Bool) : List Char :=
  natDecimal value ++ name ++ (if pl then (if 1 < value then ['s'] else []) else [])

/-- Modelled from the spec: components separated by exactly one space. -/
def joinSpace : List (List Char) → List Char
  | [] => []
  | [t] => t
  | t :: ts => t ++ ' ' :: joinSpace ts

/-- Modelled from the spec (§4.3 steps 2-3): the nine components in
the fixed order years, months, days, hours, minutes, seconds,
milliseconds, microseconds, nanoseconds, each with its suffix and
pluralizability. -/
def specComponents (secs nanos : Nat) : List (Nat × List Char × Bool) :=
  [(secs / 31557600, ("year").toList, true),
   (secs % 31557600 / 2630016, ("month").toList, true),
   (secs % 31557600 % 2630016 / 86400, ("day").toList, true),
   (secs % 31557600 % 2630016 % 86400 / 3600, ("h").toList, false),
   (secs % 31557600 % 2630016 % 86400 % 3600 / 60, ("m").toList, false),
   (secs % 31557600 % 2630016 % 86400 % 60, ("s").toList, false),
   (nanos / 1000000, ("ms").toList, false),
   (nanos / 1000 % 1000, ("µs").toList, false),
   (nanos % 1000, ("ns").toList, false)]

/-- Modelled from the spec (§4.3): render `"0s"` for the zero
duration, otherwise the nonzero components in the fixed order,
separated by exactly one space, zero components omitted. -/
def render_spec (d : Duration) : List Char :=
  if d.secs = 0 ∧ d.nanos = 0 then ("0s").toList
  else joinSpace (((specComponents d.secs d.nanos).filter
        (fun x => decide (0 < x.1))).map (fun x => specToken x.1 x.2.1 x.2.2))

/-- Value of a digit string accumulated onto a seed by repeated
multiply-by-ten-and-add, ignoring overflow. -/
def foldVal (n : Nat) (ds : List Char) : Nat :=
  ds.foldl (fun a c => a * 10 + digitVal c) n

/-- Numeric value of a decimal digit string. -/
def digitsVal (ds : List Char) : Nat := foldVal 0 ds

/-- Checked accumulation of a digit string, failing at the first step
that would leave the 64-bit range (the digit-accumulation loop's
arithmetic, isolated). -/
def accOpt (n : Nat) : List Char → Option Nat
  | [] => some n
  | c :: cs =>
    match mulAddStep n (digitVal c) with
    | some n2 => accOpt n2 cs
    | none => none

/-- Common shape of `item_plural` and `item`, with pluralizability as
a flag. -/
def itemGen (started : Bool) (name : List Char) (value : Nat) (pl : Bool) :
    List Char × Bool :=
  if 0 < value then
    ((if started then [' '] else []) ++ natDecimal value ++ name
      ++ (if pl then (if 1 < value then ['s'] else []) else []), true)
  else ([], started)

/-- Sequential rendering of a component list with the `started` flag
threaded left to right (the formatter's nine `item`/`item_plural`
calls, abstracted over the list). -/
def foldItems : List (Nat × List Char × Bool) → Bool → List Char
  | [], _ => []
  | (v, nm, pl) :: rest, st =>
    (itemGen st nm v pl).1 ++ foldItems rest (itemGen st nm v pl).2

/-- The rendered tokens of the nonzero components. -/
def tokensOf (comps : List (Nat × List Char × Bool)) : List (List Char) :=
  (comps.filter (fun x => decide (0 < x.1))).map (fun x => specToken x.1 x.2.1 x.2.2)

example : parse_duration (("2h 37min").toList) = ParseOutcome.ok ⟨9420, 0⟩ := by rfl

example : parse_duration (("32ms").toList) = ParseOutcome.ok ⟨0, 32000000⟩ := by rfl

example : parse_duration (("").toList) = ParseOutcome.err Error.empty := by rfl

example : parse_duration (("   ").toList) = ParseOutcome.err Error.empty := by rfl

example : format_duration ⟨9420, 0⟩ = ("2h 37m").toList := by rfl

example : format_duration ⟨0, 0⟩ = ("0s").toList := by rfl

example : format_duration ⟨0, 32000000⟩ = ("32ms").toList := by rfl

example : format_duration ⟨0, 32000⟩ = ("32µs").toList := by rfl

example : render_spec ⟨9420, 0⟩ = ("2h 37m").toList := by rfl

/-! ### Character-class facts -/

theorem ws_not_digit (c : Char) (h : rustIsWhitespace c = true) : isDigitChar c = false := by
  simp only [rustIsWhitespace, decide_eq_true_eq, List.mem_cons, List.not_mem_nil,
    or_false] at h
  simp only [isDigitChar, Bool.and_eq_false_iff, decide_eq_false_iff_not, not_le]
  omega

theorem utf8Len_digit (c : Char) (h : isDigitChar c = true) : utf8Len c = 1 := by
  simp only [isDigitChar, Bool.and_eq_true, decide_eq_true_eq] at h
  unfold utf8Len
  rw [if_pos (by omega)]

theorem utf8Len_pos (c : Char) : 1 ≤ utf8Len c := by
  unfold utf8Len
  split_ifs <;> omega

theorem digitVal_le (c : Char) (h : isDigitChar c = true) : digitVal c ≤ 9 := by
  simp only [isDigitChar, Bool.and_eq_true, decide_eq_true_eq] at h
  unfold digitVal
  omega

/-! ### Digit accumulation -/

theorem mulAddStep_eq (n d : Nat) :
    mulAddStep n d =
      if n * 10 + d < 18446744073709551616 then some (n * 10 + d) else none := by
  unfold mulAddStep checked_mul checked_add
  by_cases h1 : n * 10 < 18446744073709551616
  · simp only [if_pos h1, Option.some_bind]
  · have h2 : ¬ n * 10 + d < 18446744073709551616 := by omega
    simp only [if_neg h1, if_neg h2, Option.none_bind]

theorem foldVal_le (ds : List Char) : ∀ n : Nat, n ≤ foldVal n ds := by
  induction ds with
  | nil => intro n; simp [foldVal]
  | cons c cs ih =>
    intro n
    have h1 : n ≤ n * 10 + digitVal c := by omega
    have h2 := ih (n * 10 + digitVal c)
    simp only [foldVal, List.foldl_cons] at h2 ⊢
    omega

theorem accOpt_eq (ds : List Char) : ∀ n : Nat, n < 18446744073709551616 →
    accOpt n ds =
      if foldVal n ds < 18446744073709551616 then some (foldVal n ds) else none := by
  induction ds with
  | nil => intro n hn; simp [accOpt, foldVal, hn]
  | cons c cs ih =>
    intro n hn
    have hstep : accOpt n (c :: cs) =
        match mulAddStep n (digitVal c) with
        | some n2 => accOpt n2 cs
        | none => none := rfl
    rw [hstep, mulAddStep_eq]
    have hfold : foldVal n (c :: cs) = foldVal (n * 10 + digitVal c) cs := by
      simp [foldVal]
    by_cases h : n * 10 + digitVal c < 18446744073709551616
    · simp only [if_pos h]
      rw [ih _ h, hfold]
    · simp only [if_neg h]
      have hmono := foldVal_le cs (n * 10 + digitVal c)
      rw [hfold, if_neg (by omega)]

/-! ### Byte-offset slicing facts -/

theorem sliceAux_skip (xs : List Char) : ∀ (ys : List Char) (pos b e : Nat),
    pos + byteLen xs ≤ b →
    utf8SliceAux (xs ++ ys) pos b e = utf8SliceAux ys (pos + byteLen xs) b e := by
  induction xs with
  | nil => intro ys pos b e _; simp [byteLen]
  | cons c cs ih =>
    intro ys pos b e h
    simp only [byteLen] at h
    have hlen := utf8Len_pos c
    have hskip : ¬ (b ≤ pos ∧ pos + utf8Len c ≤ e) := by omega
    simp only [List.cons_append]
    rw [show utf8SliceAux (c :: (cs ++ ys)) pos b e
        = utf8SliceAux (cs ++ ys) (pos + utf8Len c) b e from by
      simp [utf8SliceAux, hskip]]
    rw [ih ys (pos + utf8Len c) b e (by omega)]
    have : pos + utf8Len c + byteLen cs = pos + (utf8Len c + byteLen cs) := by omega
    rw [this]
    simp [byteLen]

theorem byteLen_digits (ds : List Char) (h : ∀ c ∈ ds, isDigitChar c = true) :
    byteLen ds = ds.length := by
  induction ds with
  | nil => simp [byteLen]
  | cons c cs ih =>
    have hc := utf8Len_digit c (h c (by simp))
    simp only [byteLen, List.length_cons, hc, ih (fun x hx => h x (by simp [hx]))]
    omega

/-! ### Scanner-step facts -/

/-- A whitespace character seen while a number is being accumulated is
skipped (the accumulation continues across it). -/
theorem run_number_ws_step (src rest : List Char) (c : Char) (pos n : Nat)
    (cur : Nat × Nat) (h : rustIsWhitespace c = true) :
    run src (c :: rest) pos (ScanState.number n) cur
      = run src rest (pos + utf8Len c) (ScanState.number n) cur := by
  simp [run, ws_not_digit c h, h]

/-- The digit-accumulation loop over a digit prefix: checked
accumulation of the digits onto `n`, overflow failing immediately. -/
theorem run_number_digits (ds : List Char) : ∀ (src rest : List Char) (pos n : Nat)
    (cur : Nat × Nat), (∀ c ∈ ds, isDigitChar c = true) →
    run src (ds ++ rest) pos (ScanState.number n) cur =
      match accOpt n ds with
      | some n2 => run src rest (pos + ds.length) (ScanState.number n2) cur
      | none => ParseOutcome.err Error.numberOverflow := by
  induction ds with
  | nil => intro src rest pos n cur _; simp [accOpt]
  | cons c cs ih =>
    intro src rest pos n cur h
    have hc : isDigitChar c = true := h c (by simp)
    have hcs : ∀ x ∈ cs, isDigitChar x = true := fun x hx => h x (by simp [hx])
    simp only [List.cons_append]
    rw [show run src (c :: (cs ++ rest)) pos (ScanState.number n) cur
        = (match mulAddStep n (digitVal c) with
           | some n2 => run src (cs ++ rest) (pos + utf8Len c) (ScanState.number n2) cur
           | none => ParseOutcome.err Error.numberOverflow) from by
      simp [run, hc]]
    have hacc : accOpt n (c :: cs) =
        match mulAddStep n (digitVal c) with
        | some n2 => accOpt n2 cs
        | none => none := rfl
    rw [hacc]
    cases hm : mulAddStep n (digitVal c) with
    | none => rfl
    | some n2 =>
      show run src (cs ++ rest) (pos + utf8Len c) (ScanState.number n2) cur
        = match accOpt n2 cs with
          | some n3 => run src rest (pos + (c :: cs).length) (ScanState.number n3) cur
          | none => ParseOutcome.err Error.numberOverflow
      rw [ih src rest (pos + utf8Len c) n2 cur hcs]
      have hpos : pos + utf8Len c + cs.length = pos + (c :: cs).length := by
        rw [utf8Len_digit c hc]
        simp only [List.length_cons]
        omega
      rw [hpos]

/-- Whitespace while looking for the first digit of the initial number
is skipped without moving the frozen error offset. -/
theorem run_start_ws_step (src rest : List Char) (c : Char) (pos off : Nat)
    (cur : Nat × Nat) (h : rustIsWhitespace c = true) :
    run src (c :: rest) pos (ScanState.start off) cur
      = run src rest (pos + utf8Len c) (ScanState.start off) cur := by
  simp [run, ws_not_digit c h, h]

/-- Scanning for a number from the `start` state across a whitespace
prefix, a non-digit non-whitespace character fails with
`NumberExpected` at the frozen entry offset, not at the character. -/
theorem run_start_ws (pre : List Char) : ∀ (src rest : List Char) (c : Char)
    (pos off : Nat) (cur : Nat × Nat),
    (∀ x ∈ pre, rustIsWhitespace x = true) →
    isDigitChar c = false → rustIsWhitespace c = false →
    run src (pre ++ c :: rest) pos (ScanState.start off) cur
      = ParseOutcome.err (Error.numberExpected off) := by
  induction pre with
  | nil =>
    intro src rest c pos off cur _ hd hw
    simp [run, hd, hw]
  | cons a as ih =>
    intro src rest c pos off cur hpre hd hw
    have ha : rustIsWhitespace a = true := hpre a (by simp)
    have has : ∀ x ∈ as, rustIsWhitespace x = true := fun x hx => hpre x (by simp [hx])
    simp only [List.cons_append]
    rw [run_start_ws_step src (as ++ c :: rest) a pos off cur ha]
    exact ih src rest c (pos + utf8Len a) off cur has hd hw

/-- The unit table resolves the single letter `y` to the year
multiplier with a checked multiply. -/
theorem unit_multiplier_y (n a b : Nat) :
    unit_multiplier n ('y' :: []) a b = (ovMul n 31557600).map (fun x => (x, 0)) := rfl

/-- The slice of a prefix-then-`y` input at the final byte is the
letter `y`. -/
theorem slice_digits_y (ds : List Char) :
    utf8Slice (ds ++ ('y' :: [])) (byteLen ds) (byteLen ds + 1) = 'y' :: [] := by
  unfold utf8Slice
  rw [sliceAux_skip ds ('y' :: []) 0 (byteLen ds) (byteLen ds + 1) (by omega)]
  rw [show (0 : Nat) + byteLen ds = byteLen ds from by omega]
  have hy : utf8Len 'y' = 1 := rfl
  simp [utf8SliceAux, hy]

/-- Evaluation of `parse_unit` from the empty accumulator when the
unit contributes whole seconds only. -/
theorem parse_unit_sec_only (src : List Char) (n a b sec : Nat)
    (hu : unit_multiplier n (utf8Slice src a b) a b = Except.ok (sec, 0))
    (hs : sec < 18446744073709551616) :
    parse_unit src (0, 0) n a b = Except.ok (sec, 0) := by
  unfold parse_unit
  rw [hu]
  show (match ovAdd 0 sec with
        | Except.error e => Except.error e
        | Except.ok sec2 => Except.ok (sec2, (0 : Nat))) = Except.ok (sec, 0)
  have h1 : ovAdd 0 sec = Except.ok sec := by
    unfold ovAdd checked_add
    rw [Nat.zero_add, if_pos hs]
  rw [h1]

/-- Evaluation of `parse_unit` from the empty accumulator when the
checked multiplier application overflows. -/
theorem parse_unit_mul_overflow (src : List Char) (n a b m : Nat)
    (hu : unit_multiplier n (utf8Slice src a b) a b
      = (ovMul n m).map (fun x => (x, 0)))
    (hm : ¬ n * m < 18446744073709551616) :
    parse_unit src (0, 0) n a b = Except.error Error.numberOverflow := by
  unfold parse_unit
  rw [hu]
  have hov : ovMul n m = Except.error Error.numberOverflow := by
    unfold ovMul checked_mul
    rw [if_neg hm]
  rw [hov]
  rfl

/-- C7: for every nonempty decimal digit string followed by the unit
`y`, `parse_duration` returns `NumberOverflow` exactly when the
checked 64-bit arithmetic (digit accumulation or the year-multiplier
application) would leave the `u64` range, and otherwise the exact
product of the number and the year multiplier. -/
theorem c7_overflow_digits_year (ds : List Char) (h1 : ds ≠ [])
    (h2 : ∀ c ∈ ds, isDigitChar c = true) :
    parse_duration (ds ++ ('y' :: [])) =
      if digitsVal ds * 31557600 < 18446744073709551616 then
        ParseOutcome.ok ⟨digitsVal ds * 31557600, 0⟩
      else ParseOutcome.err Error.numberOverflow := by
  cases ds with
  | nil => exact absurd rfl h1
  | cons d ds' =>
    have hd : isDigitChar d = true := h2 d (by simp)
    have hds' : ∀ c ∈ ds', isDigitChar c = true := fun c hc => h2 c (by simp [hc])
    have hdv : digitVal d < 18446744073709551616 := by
      have := digitVal_le d hd; omega
    have hN : digitsVal (d :: ds') = foldVal (digitVal d) ds' := by
      simp [digitsVal, foldVal]
    have hbl : byteLen (d :: ds') = 1 + ds'.length := by
      rw [byteLen_digits (d :: ds') h2]
      simp [List.length_cons]
      omega
    have hslice : utf8Slice (d :: (ds' ++ ('y' :: []))) (1 + ds'.length) (1 + ds'.length + 1)
        = 'y' :: [] := by
      have hs := slice_digits_y (d :: ds')
      rw [hbl] at hs
      exact hs
    unfold parse_duration
    rw [show ((d :: ds') ++ ('y' :: []) : List Char) = d :: (ds' ++ ('y' :: [])) from rfl]
    rw [show run (d :: (ds' ++ ('y' :: []))) (d :: (ds' ++ ('y' :: []))) 0
          (ScanState.start 0) (0, 0)
        = run (d :: (ds' ++ ('y' :: []))) (ds' ++ ('y' :: [])) (utf8Len d)
            (ScanState.number (digitVal d)) (0, 0) from by
      simp [run, hd]]
    rw [utf8Len_digit d hd]
    rw [run_number_digits ds' _ _ 1 (digitVal d) (0, 0) hds']
    rw [accOpt_eq ds' (digitVal d) hdv]
    by_cases hlt : foldVal (digitVal d) ds' < 18446744073709551616
    · rw [if_pos hlt]
      show run (d :: (ds' ++ ('y' :: []))) ('y' :: []) (1 + ds'.length)
          (ScanState.number (foldVal (digitVal d) ds')) (0, 0) = _
      rw [show run (d :: (ds' ++ ('y' :: []))) ('y' :: []) (1 + ds'.length)
            (ScanState.number (foldVal (digitVal d) ds')) (0, 0)
          = (match parse_unit (d :: (ds' ++ ('y' :: []))) (0, 0) (foldVal (digitVal d) ds')
              (1 + ds'.length) (1 + ds'.length + 1) with
            | Except.error e => ParseOutcome.err e
            | Except.ok cur2 => finalize cur2) from rfl]
      by_cases hm : foldVal (digitVal d) ds' * 31557600 < 18446744073709551616
      · have hu : unit_multiplier (foldVal (digitVal d) ds')
            (utf8Slice (d :: (ds' ++ ('y' :: []))) (1 + ds'.length) (1 + ds'.length + 1))
            (1 + ds'.length) (1 + ds'.length + 1)
            = Except.ok (foldVal (digitVal d) ds' * 31557600, 0) := by
          rw [hslice, unit_multiplier_y]
          unfold ovMul checked_mul
          rw [if_pos hm]
          rfl
        have hpu := parse_unit_sec_only _ _ _ _ _ hu hm
        rw [hpu]
        show finalize (foldVal (digitVal d) ds' * 31557600, 0) = _
        rw [hN, if_pos hm]
        show (match duration_new (foldVal (digitVal d) ds' * 31557600) 0 with
              | some dd => ParseOutcome.ok dd
              | none => ParseOutcome.panicked) = _
        unfold duration_new
        rw [show (0 : Nat) / 1000000000 = 0 from rfl]
        rw [if_pos (by omega)]
        norm_num
      · have hu : unit_multiplier (foldVal (digitVal d) ds')
            (utf8Slice (d :: (ds' ++ ('y' :: []))) (1 + ds'.length) (1 + ds'.length + 1))
            (1 + ds'.length) (1 + ds'.length + 1)
            = (ovMul (foldVal (digitVal d) ds') 31557600).map (fun x => (x, 0)) := by
          rw [hslice, unit_multiplier_y]
        have hpu := parse_unit_mul_overflow _ _ _ _ _ hu hm
        rw [hpu]
        rw [hN, if_neg hm]
    · rw [if_neg hlt]
      show ParseOutcome.err Error.numberOverflow = _
      have hge : foldVal (digitVal d) ds' ≤ foldVal (digitVal d) ds' * 31557600 := by
        calc foldVal (digitVal d) ds' = foldVal (digitVal d) ds' * 1 := by omega
          _ ≤ foldVal (digitVal d) ds' * 31557600 := Nat.mul_le_mul_left _ (by omega)
      rw [hN, if_neg (by omega)]

/-! ### Formatter refinement -/

theorem item_plural_eq (st : Bool) (nm : List Char) (v : Nat) :
    item_plural st nm v = itemGen st nm v true := by
  unfold item_plural itemGen
  by_cases h : 0 < v
  · simp [h, List.append_assoc]
  · simp [h]

theorem item_eq (st : Bool) (nm : List Char) (v : Nat) :
    item st nm v = itemGen st nm v false := by
  unfold item itemGen
  by_cases h : 0 < v
  · simp [h]
  · simp [h]

theorem foldItems_spec (comps : List (Nat × List Char × Bool)) : ∀ st : Bool,
    foldItems comps st =
      (if st = true ∧ tokensOf comps ≠ [] then [' '] else []) ++ joinSpace (tokensOf comps) := by
  induction comps with
  | nil => intro st; simp [foldItems, tokensOf, joinSpace]
  | cons x rest ih =>
    intro st
    obtain ⟨v, nm, pl⟩ := x
    by_cases hv : 0 < v
    · have htok : tokensOf ((v, nm, pl) :: rest) = specToken v nm pl :: tokensOf rest := by
        simp [tokensOf, List.filter_cons, hv]
      have hitem : itemGen st nm v pl
          = ((if st then [' '] else []) ++ specToken v nm pl, true) := by
        unfold itemGen specToken
        rw [if_pos hv]
        simp [List.append_assoc]
      rw [show foldItems ((v, nm, pl) :: rest) st
          = (itemGen st nm v pl).1 ++ foldItems rest (itemGen st nm v pl).2 from rfl]
      rw [hitem, htok, ih true]
      cases htr : tokensOf rest with
      | nil =>
        simp only [htr, joinSpace]
        cases st <;> simp [joinSpace]
      | cons u ts =>
        simp only [htr]
        rw [show joinSpace (specToken v nm pl :: u :: ts)
            = specToken v nm pl ++ ' ' :: joinSpace (u :: ts) from rfl]
        cases st <;> simp [joinSpace]
    · have htok : tokensOf ((v, nm, pl) :: rest) = tokensOf rest := by
        simp [tokensOf, List.filter_cons, hv]
      have hitem : itemGen st nm v pl = ([], st) := by
        unfold itemGen
        rw [if_neg hv]
      rw [show foldItems ((v, nm, pl) :: rest) st
          = (itemGen st nm v pl).1 ++ foldItems rest (itemGen st nm v pl).2 from rfl]
      rw [hitem, htok]
      simp only [List.nil_append]
      exact ih st

/-- The code formatter coincides with the specification's description:
nonzero components in fixed order, single-space separated, zero
components omitted, `"0s"` for zero. -/
theorem format_eq_spec (d : Duration) : format_duration d = render_spec d := by
  by_cases hz : d.secs = 0 ∧ d.nanos = 0
  · simp [format_duration, render_spec, hz]
  · have hday : d.secs % 31557600 % 2630016 % 86400 < 86400 :=
      Nat.mod_lt _ (by norm_num)
    have hh : d.secs % 31557600 % 2630016 % 86400 / 3600 < 4294967296 := by
      have h24 : d.secs % 31557600 % 2630016 % 86400 / 3600 < 24 :=
        (Nat.div_lt_iff_lt_mul (by norm_num)).mpr (by omega)
      omega
    have hmin : d.secs % 31557600 % 2630016 % 86400 % 3600 / 60 < 4294967296 := by
      have h3600 : d.secs % 31557600 % 2630016 % 86400 % 3600 < 3600 :=
        Nat.mod_lt _ (by norm_num)
      have h60 : d.secs % 31557600 % 2630016 % 86400 % 3600 / 60 < 60 :=
        (Nat.div_lt_iff_lt_mul (by norm_num)).mpr (by omega)
      omega
    have hsec : d.secs % 31557600 % 2630016 % 86400 % 60 < 4294967296 := by
      have h60 : d.secs % 31557600 % 2630016 % 86400 % 60 < 60 :=
        Nat.mod_lt _ (by norm_num)
      omega
    have hfd : format_duration d = foldItems (specComponents d.secs d.nanos) false := by
      simp only [format_duration]
      rw [if_neg hz]
      simp only [item_plural_eq, item_eq]
      rw [Nat.mod_eq_of_lt hh, Nat.mod_eq_of_lt hmin, Nat.mod_eq_of_lt hsec]
      simp [foldItems, specComponents, List.append_assoc]
    rw [hfd, foldItems_spec]
    rw [if_neg (by simp)]
    unfold render_spec
    rw [if_neg hz]
    simp only [List.nil_append]
    rfl

/-! ### Claim theorems -/

/-- C1 (code_bug): the semantic round-trip `parse(format(d)) = Ok(d)`
fails inside the claimed no-overflow bound: the duration of 32
microseconds (seconds `0 < u64::MAX / 31557600`) renders as `"32µs"`,
and the parser rejects that very string with `InvalidCharacter` at
byte offset 2, because `µ` is outside the scanner's letter class. -/
theorem c1_roundtrip_fails_on_micros :
    format_duration ⟨0, 32000⟩ = ("32µs").toList ∧
    parse_duration (format_duration ⟨0, 32000⟩)
      = ParseOutcome.err (Error.invalidCharacter 2) :=
  ⟨by rfl, by rfl⟩

/-- C2 (code_bug): the spelling `us` of the documented unit table is
missing from `parse_unit` (`"1us"` is an unknown unit), and `µs` is
unreachable (`µ` is rejected as `InvalidCharacter` before the unit is
ever resolved); the case-sensitive pair `M`/`m` does work as listed
(2 630 016 s vs 60 s). -/
theorem c2_unit_table_divergence :
    parse_duration (("1us").toList)
      = ParseOutcome.err (Error.unknownUnit 1 3 (("us").toList) 1) ∧
    parse_duration (("1µs").toList) = ParseOutcome.err (Error.invalidCharacter 1) ∧
    parse_duration (("1M").toList) = ParseOutcome.ok ⟨2630016, 0⟩ ∧
    parse_duration (("1m").toList) = ParseOutcome.ok ⟨60, 0⟩ :=
  ⟨by rfl, by rfl, by rfl, by rfl⟩

/-- C3 (code_bug): `parse_duration` is not total: with `u64::MAX`
seconds accumulated and the nanosecond field left at exactly
`1_000_000_000` (the strict `>` carry does not normalize it), the
final `Duration::new` carries the extra second into the seconds field,
overflows `u64`, and panics. -/
theorem c3_finalization_panics :
    parse_duration (("18446744073709551615s 1000000000ns").toList)
      = ParseOutcome.panicked := by rfl

/-- C4 (corrected, counterexample): whitespace between two digit runs
is silently skipped, so the runs are joined into a single number:
`"1 2s"` parses to 12 seconds, identically to `"12s"`. -/
theorem c4_whitespace_joins_digits_cex :
    parse_duration (("1 2s").toList) = ParseOutcome.ok ⟨12, 0⟩ ∧
    parse_duration (("12s").toList) = ParseOutcome.ok ⟨12, 0⟩ :=
  ⟨by rfl, by rfl⟩

/-- C4 (amended): a whitespace run encountered while a number is being
accumulated is skipped without terminating the number, so digit runs
on either side of whitespace are joined into one number; whitespace
between a unit and the next number remains allowed and optional. -/
theorem c4_number_whitespace_skipped (w : List Char) : ∀ (src rest : List Char)
    (pos n : Nat) (cur : Nat × Nat), (∀ x ∈ w, rustIsWhitespace x = true) →
    run src (w ++ rest) pos (ScanState.number n) cur
      = run src rest (pos + byteLen w) (ScanState.number n) cur := by
  induction w with
  | nil => intro src rest pos n cur _; simp [byteLen]
  | cons c cs ih =>
    intro src rest pos n cur hw
    have hc : rustIsWhitespace c = true := hw c (by simp)
    have hcs : ∀ x ∈ cs, rustIsWhitespace x = true := fun x hx => hw x (by simp [hx])
    simp only [List.cons_append]
    rw [run_number_ws_step src (cs ++ rest) c pos n cur hc]
    rw [ih src rest (pos + utf8Len c) n cur hcs]
    have hpos : pos + utf8Len c + byteLen cs = pos + byteLen (c :: cs) := by
      simp [byteLen]
      omega
    rw [hpos]

theorem c4_number_whitespace_skipped_witness :
    (∀ x ∈ ([' '] : List Char), rustIsWhitespace x = true) ∧
    run [] ([' '] ++ []) 0 (ScanState.number 1) (0, 0)
      = run [] [] (0 + byteLen [' ']) (ScanState.number 1) (0, 0) :=
  ⟨by decide, c4_number_whitespace_skipped [' '] [] [] 0 1 (0, 0) (by decide)⟩

/-- C5 (corrected, counterexample): for `" x"`, the offending
character `x` sits at byte offset 1, but `NumberExpected` reports
offset 0 (the frozen offset where the scan for the number began). -/
theorem c5_numberexpected_offset_cex :
    parse_duration ((" x").toList) = ParseOutcome.err (Error.numberExpected 0) ∧
    parse_duration ((" x").toList) ≠ ParseOutcome.err (Error.numberExpected 1) :=
  ⟨by rfl, by decide⟩

/-- C5 (amended): when a non-digit, non-whitespace character appears
where a number must start, `NumberExpected` carries the byte offset at
which the scan for that number began — i.e. the position before any
skipped leading whitespace — which equals the offending character's
own offset only when no whitespace precedes it. -/
theorem c5_numberexpected_scan_origin (pre rest : List Char) (c : Char)
    (hpre : ∀ x ∈ pre, rustIsWhitespace x = true)
    (hd : isDigitChar c = false) (hw : rustIsWhitespace c = false) :
    parse_duration (pre ++ c :: rest) = ParseOutcome.err (Error.numberExpected 0) := by
  unfold parse_duration
  exact run_start_ws pre (pre ++ c :: rest) rest c 0 0 (0, 0) hpre hd hw

theorem c5_numberexpected_scan_origin_witness :
    (∀ x ∈ ([' '] : List Char), rustIsWhitespace x = true) ∧
    isDigitChar 'x' = false ∧ rustIsWhitespace 'x' = false ∧
    parse_duration ([' '] ++ 'x' :: []) = ParseOutcome.err (Error.numberExpected 0) :=
  ⟨by decide, by decide, by decide,
    c5_numberexpected_scan_origin [' '] [] 'x' (by decide) (by decide) (by decide)⟩

/-- C6 (corrected, counterexample): after applying `1000000000ns` to
the empty accumulator, the nanosecond field is exactly
`1_000_000_000`, which is not strictly below `1_000_000_000`: the
source carries only on the strict comparison `nsec > 1_000_000_000`,
so the claimed `≥`-triggered normalization does not happen at the
boundary. -/
theorem c6_nsec_carry_boundary_cex :
    parse_unit (("1000000000ns").toList) (0, 0) 1000000000 10 12
      = Except.ok (0, 1000000000) ∧
    ¬ ((1000000000 : Nat) < 1000000000) :=
  ⟨by rfl, by omega⟩

/-- C6 (amended): after each `parse_unit` step the accumulator's
nanosecond field is at most `1_000_000_000` (it can equal exactly
`1_000_000_000`; the carry of the integer quotient into seconds
happens only when the accumulated nanoseconds strictly exceed
`1_000_000_000`, and then the remainder kept is strictly below). -/
theorem c6_nsec_le_bound (src : List Char) (cur : Nat × Nat) (n a b s2 n2 : Nat)
    (hp : parse_unit src cur n a b = Except.ok (s2, n2)) : n2 ≤ 1000000000 := by
  unfold parse_unit at hp
  split at hp
  · exact absurd hp (by simp)
  · split at hp
    · exact absurd hp (by simp)
    · split at hp
      · split at hp
        · exact absurd hp (by simp)
        · split at hp
          · exact absurd hp (by simp)
          · simp only [Except.ok.injEq, Prod.mk.injEq] at hp
            omega
      · split at hp
        · exact absurd hp (by simp)
        · simp only [Except.ok.injEq, Prod.mk.injEq] at hp
          omega

theorem c6_nsec_le_bound_witness :
    parse_unit (("1s").toList) (0, 0) 1 1 2 = Except.ok (1, 0) ∧
    (0 : Nat) ≤ 1000000000 :=
  ⟨by rfl, c6_nsec_le_bound (("1s").toList) (0, 0) 1 1 2 1 0 (by rfl)⟩

theorem c7_overflow_digits_year_witness :
    parse_duration (("18446744073709551615y").toList)
      = ParseOutcome.err Error.numberOverflow := by
  have h := c7_overflow_digits_year (("18446744073709551615").toList) (by decide) (by decide)
  rw [show (("18446744073709551615y").toList : List Char)
      = ("18446744073709551615").toList ++ ('y' :: []) from rfl]
  rw [h]
  decide

/-- C8: a number followed by letters not in the unit table yields
`UnknownUnit` with the exact substring, its byte span and the value:
`"1xyz"` gives `UnknownUnit{start: 1, end: 4, unit: "xyz", value: 1}`,
the span covering exactly the three characters `xyz`. -/
theorem c8_unknown_unit_span :
    parse_duration (("1xyz").toList)
      = ParseOutcome.err (Error.unknownUnit 1 4 (("xyz").toList) 1) := by rfl

/-- C9: the formatter renders `"0s"` for the zero duration and
otherwise exactly the nonzero components of the greedy decomposition
in the fixed order years, months, days, h, m, s, ms, µs, ns, separated
by single spaces, pluralizing only year/month/day and only for values
greater than one (shown by equality with the spec-modelled renderer),
with `Duration(9420, 0)` rendering as `"2h 37m"`. -/
theorem c9_formatter_canonical :
    (∀ d : Duration, format_duration d = render_spec d) ∧
    format_duration ⟨0, 0⟩ = ("0s").toList ∧
    format_duration ⟨9420, 0⟩ = ("2h 37m").toList :=
  ⟨format_eq_spec, by rfl, by rfl⟩

/-- C10: whitespace between a unit and the next number is optional: a
digit encountered while scanning unit letters closes the unit
immediately (applying it to the accumulator) and starts the next
number, and concretely `"1h2m3s"` parses identically to
`"1h 2m 3s"`. -/
theorem c10_unspaced_tokens :
    parse_duration (("1h2m3s").toList) = parse_duration (("1h 2m 3s").toList) ∧
    parse_duration (("1h2m3s").toList) = ParseOutcome.ok ⟨3723, 0⟩ ∧
    (∀ (src rest : List Char) (pos n ustart : Nat) (cur : Nat × Nat) (c : Char),
      isDigitChar c = true →
      run src (c :: rest) pos (ScanState.unit n ustart) cur =
        match parse_unit src cur n ustart pos with
        | Except.error e => ParseOutcome.err e
        | Except.ok cur2 => run src rest (pos + utf8Len c) (ScanState.number (digitVal c)) cur2) := by
  refine ⟨by rfl, by rfl, ?_⟩
  intro src rest pos n ustart cur c hc
  simp [run, hc]

theorem c10_unspaced_tokens_witness :
    isDigitChar '2' = true ∧
    run (("1h2m3s").toList) (("2m3s").toList) 2 (ScanState.unit 1 1) (0, 0) =
      match parse_unit (("1h2m3s").toList) ((0 : Nat), (0 : Nat)) 1 1 2 with
      | Except.error e => ParseOutcome.err e
      | Except.ok cur2 => run (("1h2m3s").toList) (("m3s").toList) 3 (ScanState.number 2) cur2 :=
  ⟨by decide,
    c10_unspaced_tokens.2.2 (("1h2m3s").toList) (("m3s").toList) 2 1 1 (0, 0) '2' (by decide)⟩

end Myhumantime
